import Mathlib

/-!
# go-swan-client: the chain-node RPC adapter and the task-service REST adapter

A shallow embedding of `common/client/lotusclient.go` and `common/client/swan.go`.

Conventions of the embedding

* A Go slice is `Slice α := Option (List α)`: `none` is the nil slice (written `null` by
  `encoding/json`), `some xs` a non-nil slice (written `[...]`).
* A Go pointer that may be nil is an `Option`.
* Go's `int` is the 64-bit two's complement integer of the platforms the client is built
  for; conversions wrap explicitly.
* The HTTP helpers of the package (`HttpGet`, `HttpGetNoToken`, `HttpPost`, `HttpPostNoToken`,
  `HttpPut`) are not part of the two files; an operation receives the remote side as a
  function `http : HttpCall → String` from the call it issues to the response text.
* `json.Unmarshal` into a given struct type is a function `String → Except String T`.
* An operation yields a `Run`: the HTTP calls it issued, the lines it logged, and how it
  ended (a returned value, process exit through `Fatal`, or a runtime panic).
-/

set_option linter.dupNamespace false
set_option linter.unusedVariables false

namespace client

/-! ## Go runtime values -/

/-- A Go slice: `none` is the nil slice, `some xs` a non-nil slice holding `xs`. -/
abbrev Slice (α : Type) := Option (List α)

/-- Go's builtin `append(s, x)`: appending to the nil slice gives a non-nil slice. -/
def Slice.append {α : Type} (s : Slice α) (x : α) : Slice α :=
  match s with
  | none => some [x]
  | some xs => some (xs ++ [x])

/-- Go's builtin `len(s)` of a string: its length in bytes. -/
def len (s : String) : Nat := s.utf8ByteSize

/-- Width of Go's `int` in bits. -/
def intBits : Nat := 64

/-- Two's complement wrap of an integer to `w` bits. -/
def wrapSigned (w : Nat) (x : Int) : Int :=
  (x + 2 ^ (w - 1)) % 2 ^ w - 2 ^ (w - 1)

/-- The conversion `int(x)` of an `int64` value `x`. -/
def int_of_int64 (x : Int) : Int := wrapSigned intBits x

/-- The range of `int64`. -/
def IsInt64 (x : Int) : Prop := -(2 : Int) ^ 63 ≤ x ∧ x < (2 : Int) ^ 63

/-- The type `github.com/shopspring/decimal.Decimal`: `value * 10 ^ exp`. -/
structure Decimal where
  value : Int
  exp : Int
  deriving DecidableEq

/-! ## Logging and outcomes -/

/-- Severity of a line handed to `logs.GetLogger()`. -/
inductive Level
  | Info
  | Error
  | Fatal
  deriving DecidableEq

/-- One call of the logger: its level and its operands, in order. -/
structure LogEntry where
  level : Level
  args : List String
  deriving DecidableEq

/-- How a call of an operation ends. -/
inductive Outcome (α : Type)
  | returned (value : α)
  | exited
  | nilDereference
  | failedTypeAssertion
  deriving DecidableEq

/-! ## Constants and wire types of `lotusclient.go` -/

def LOTUS_JSON_RPC_ID : Int := 7878
def LOTUS_JSON_RPC_VERSION : String := "2.0"
def LOTUS_CLIENT_GET_DEAL_INFO : String := "Filecoin.ClientGetDealInfo"
def LOTUS_CLIENT_GET_DEAL_STATUS : String := "Filecoin.ClientGetDealStatus"
def LOTUS_CHAIN_HEAD : String := "Filecoin.ChainHead"
def LOTUS_MARKET_GET_ASK : String := "Filecoin.MarketGetAsk"
def LOTUS_CLIENT_CALC_COMM_P : String := "Filecoin.ClientCalcCommP"
def LOTUS_CLIENT_IMPORT : String := "Filecoin.ClientImport"
def LOTUS_CLIENT_GEN_CAR : String := "Filecoin.ClientGenCar"
def LOTUS_CLIENT_START_DEAL : String := "Filecoin.ClientStartDeal"
def LOTUS_VERSION : String := "Filecoin.Version"

structure Cid where
  Cid : String
  deriving DecidableEq

structure ClientFileParam where
  Path : String
  IsCAR : Bool
  deriving DecidableEq

structure ClientStartDealParamData where
  TransferType : String
  Root : Cid
  PieceCid : Cid
  PieceSize : Int
  RawBlockSize : Int
  deriving DecidableEq

structure ClientStartDealParam where
  Data : ClientStartDealParamData
  Wallet : String
  Miner : String
  EpochPrice : String
  MinBlocksDuration : Int
  ProviderCollateral : String
  DealStartEpoch : Int
  FastRetrieval : Bool
  VerifiedDeal : Bool
  deriving DecidableEq

/-- The values the adapter stores in the `[]interface{}` parameter list. -/
inductive Param
  | str (s : String)
  | file (p : ClientFileParam)
  | startDeal (p : ClientStartDealParam)
  deriving DecidableEq

structure LotusJsonRpcParams where
  JsonRpc : String
  Method : String
  Params : Slice Param
  Id : Int
  deriving DecidableEq

structure LotusClient where
  ApiUrl : String
  AccessToken : String
  MinerApiUrl : String
  MinerAccessToken : String
  deriving DecidableEq

structure JsonRpcError where
  Code : Int
  Message : String
  deriving DecidableEq

structure LotusJsonRpcResult where
  Id : Int
  JsonRpc : String
  Error : Option JsonRpcError
  deriving DecidableEq

structure MarketGetAskResultAsk where
  Price : String
  VerifiedPrice : String
  MinPieceSize : Int
  MaxPieceSize : Int
  Miner : String
  Timestamp : Int
  Expiry : Int
  SeqNo : Int
  deriving DecidableEq

structure MarketGetAskResult where
  Ask : MarketGetAskResultAsk
  deriving DecidableEq

structure MarketGetAsk extends LotusJsonRpcResult where
  Result : Option MarketGetAskResult
  deriving DecidableEq

structure ClientCalcCommPResult where
  Root : Cid
  Size : Int
  deriving DecidableEq

structure ClientCalcCommP extends LotusJsonRpcResult where
  Result : Option ClientCalcCommPResult
  deriving DecidableEq

structure ClientImportResult where
  Root : Cid
  ImportID : Int
  deriving DecidableEq

structure ClientImport extends LotusJsonRpcResult where
  Result : Option ClientImportResult
  deriving DecidableEq

structure LotusVersionResult where
  Version : String
  APIVersion : Int
  BlockDelay : Int
  deriving DecidableEq

structure LotusVersionResponse extends LotusJsonRpcResult where
  Result : LotusVersionResult
  deriving DecidableEq

structure ClientStartDeal extends LotusJsonRpcResult where
  Result : Option Cid
  deriving DecidableEq

/-! ## Types of the `config` and `model` packages, as far as the adapters read them -/

/-- The `Lotus` section of the configuration (`config.GetConfig().Lotus`). -/
structure LotusConfig where
  ApiUrl : String
  AccessToken : String
  MinerApiUrl : String
  MinerAccessToken : String
  deriving DecidableEq

/-- The `Main` section of the configuration (`config.GetConfig().Main`). -/
structure MainConfig where
  SwanApiUrl : String
  SwanApiKey : String
  SwanAccessToken : String
  deriving DecidableEq

/-- The fields of `model.FileDesc` read by `LotusClientStartDeal`. -/
structure FileDesc where
  DataCid : String
  PieceCid : String
  StartEpoch : Int
  deriving DecidableEq

/-- The fields of `model.DealConfig` read by `LotusClientStartDeal`. -/
structure DealConfig where
  SenderWallet : String
  MinerFid : String
  FastRetrieval : Bool
  VerifiedDeal : Bool
  deriving DecidableEq

/-! ## Form values (`net/url.Values`) -/

/-- A `url.Values` map from a key to the list of its values, kept as an association list
with one entry per key. -/
structure Values where
  entries : List (String × List String)
  deriving DecidableEq

/-- The empty map `url.Values{}`. -/
def Values.empty : Values := ⟨[]⟩

/-- Appends `value` to the values of `key` in an association list. -/
def addEntry (key value : String) : List (String × List String) → List (String × List String)
  | [] => [(key, [value])]
  | (k, vs) :: rest =>
    if k = key then (k, vs ++ [value]) :: rest else (k, vs) :: addEntry key value rest

/-- The method `Values.Add`, which is `v[key] = append(v[key], value)`. -/
def Values.Add (v : Values) (key value : String) : Values :=
  ⟨addEntry key value v.entries⟩

/-- The map lookup `v[key]` with its presence flag: `none` when the key is absent. -/
def Values.lookup (v : Values) (key : String) : Option (List String) :=
  (v.entries.find? (fun e => e.1 == key)).map (fun e => e.2)

/-! ## The transport boundary -/

/-- The HTTP helper of the package through which a call leaves the adapter. -/
inductive Transport
  | HttpGet
  | HttpGetNoToken
  | HttpPost
  | HttpPostNoToken
  | HttpPut
  deriving DecidableEq

structure TokenAccessInfo where
  ApiKey : String
  AccessToken : String
  deriving DecidableEq

/-- The value handed to the HTTP helper as request parameters. -/
inductive Body
  | rpc (request : LotusJsonRpcParams)
  | text (s : String)
  | credentials (info : TokenAccessInfo)
  | formReader (form : Values)
  deriving DecidableEq

/-- One call of an HTTP helper: which helper, the URL, the bearer token (absent for the
no-token helpers) and the parameters. `Body.formReader v` stands for
`strings.NewReader(v.Encode())`. -/
structure HttpCall where
  via : Transport
  url : String
  token : Option String
  body : Body
  deriving DecidableEq

/-- What one call of an operation did: the HTTP calls issued, the lines logged, the end. -/
structure Run (α : Type) where
  calls : List HttpCall
  logs : List LogEntry
  outcome : Outcome α
  deriving DecidableEq

/-! ## `lotusclient.go` -/

def LotusGetClient (cfg : LotusConfig) : LotusClient :=
  { ApiUrl := cfg.ApiUrl
    AccessToken := cfg.AccessToken
    MinerApiUrl := cfg.MinerApiUrl
    MinerAccessToken := cfg.MinerAccessToken }

/-- The message of `fmt.Sprintf("error, code:%d, message:%s", code, message)`. -/
def rpcErrorText (e : JsonRpcError) : String :=
  "error, code:" ++ toString e.Code ++ ", message:" ++ e.Message

def LotusVersion (cfg : LotusConfig) (http : HttpCall → String)
    (unmarshal : String → Except String LotusVersionResponse) :
    Run (Option String × Option String) :=
  let lotusClient := LotusGetClient cfg
  let params : Slice Param := none
  let jsonRpcParams : LotusJsonRpcParams :=
    { JsonRpc := LOTUS_JSON_RPC_VERSION
      Method := LOTUS_VERSION
      Params := params
      Id := LOTUS_JSON_RPC_ID }
  let call : HttpCall := ⟨Transport.HttpGetNoToken, lotusClient.MinerApiUrl, none, Body.rpc jsonRpcParams⟩
  let response := http call
  if response = "" then
    let err := "no response from api"
    ⟨[call], [⟨Level.Error, [err]⟩], Outcome.returned (none, some err)⟩
  else
    match unmarshal response with
    | Except.error err => ⟨[call], [⟨Level.Error, [err]⟩], Outcome.returned (none, some err)⟩
    | Except.ok lotusVersionResponse =>
      match lotusVersionResponse.Error with
      | some e =>
        let err := rpcErrorText e
        ⟨[call], [⟨Level.Error, [err]⟩], Outcome.returned (none, some err)⟩
      | none => ⟨[call], [], Outcome.returned (some lotusVersionResponse.Result.Version, none)⟩

def LotusMarketGetAsk (cfg : LotusConfig) (http : HttpCall → String)
    (unmarshal : String → Except String MarketGetAsk) : Run (Option MarketGetAskResultAsk) :=
  let lotusClient := LotusGetClient cfg
  let params : Slice Param := none
  let jsonRpcParams : LotusJsonRpcParams :=
    { JsonRpc := LOTUS_JSON_RPC_VERSION
      Method := LOTUS_MARKET_GET_ASK
      Params := params
      Id := LOTUS_JSON_RPC_ID }
  let call : HttpCall := ⟨Transport.HttpGetNoToken, lotusClient.MinerApiUrl, none, Body.rpc jsonRpcParams⟩
  let response := http call
  if response = "" then
    ⟨[call], [], Outcome.returned none⟩
  else
    match unmarshal response with
    | Except.error err => ⟨[call], [⟨Level.Error, [err]⟩], Outcome.returned none⟩
    | Except.ok marketGetAsk =>
      match marketGetAsk.Result with
      | none => ⟨[call], [], Outcome.returned none⟩
      | some result => ⟨[call], [], Outcome.returned (some result.Ask)⟩

def LotusClientCalcCommP (cfg : LotusConfig) (http : HttpCall → String)
    (unmarshal : String → Except String ClientCalcCommP) (filepath : String) :
    Run (Option String) :=
  let lotusClient := LotusGetClient cfg
  let params : Slice Param := none
  let params := params.append (Param.str filepath)
  let jsonRpcParams : LotusJsonRpcParams :=
    { JsonRpc := LOTUS_JSON_RPC_VERSION
      Method := LOTUS_CLIENT_CALC_COMM_P
      Params := params
      Id := LOTUS_JSON_RPC_ID }
  let call : HttpCall :=
    ⟨Transport.HttpPost, lotusClient.ApiUrl, some lotusClient.AccessToken, Body.rpc jsonRpcParams⟩
  let response := http call
  if response = "" then
    ⟨[call], [], Outcome.returned none⟩
  else
    match unmarshal response with
    | Except.error err => ⟨[call], [⟨Level.Error, [err]⟩], Outcome.returned none⟩
    | Except.ok clientCalcCommP =>
      match clientCalcCommP.Result with
      | none => ⟨[call], [], Outcome.returned none⟩
      | some result =>
        let pieceCid := result.Root.Cid
        ⟨[call], [], Outcome.returned (some pieceCid)⟩

def LotusClientImport (cfg : LotusConfig) (http : HttpCall → String)
    (unmarshal : String → Except String ClientImport) (filepath : String) (isCar : Bool) :
    Run (Option String × Option String) :=
  let lotusClient := LotusGetClient cfg
  let params : Slice Param := none
  let clientFileParam : ClientFileParam := { Path := filepath, IsCAR := isCar }
  let params := params.append (Param.file clientFileParam)
  let jsonRpcParams : LotusJsonRpcParams :=
    { JsonRpc := LOTUS_JSON_RPC_VERSION
      Method := LOTUS_CLIENT_IMPORT
      Params := params
      Id := LOTUS_JSON_RPC_ID }
  let call : HttpCall :=
    ⟨Transport.HttpGet, lotusClient.ApiUrl, some lotusClient.AccessToken, Body.rpc jsonRpcParams⟩
  let response := http call
  if response = "" then
    let err := "lotus import file " ++ filepath ++ " failed, no response from " ++ lotusClient.ApiUrl
    ⟨[call], [⟨Level.Error, [err]⟩], Outcome.returned (none, some err)⟩
  else
    match unmarshal response with
    | Except.error err => ⟨[call], [⟨Level.Error, [err]⟩], Outcome.returned (none, some err)⟩
    | Except.ok clientImport =>
      match clientImport.Error with
      | some e =>
        let err := "lotus import file " ++ filepath ++ " failed, error code:" ++ toString e.Code
          ++ ", message:" ++ e.Message
        ⟨[call], [⟨Level.Error, [err]⟩], Outcome.returned (none, some err)⟩
      | none =>
        match clientImport.Result with
        | none =>
          let err := "lotus import file " ++ filepath ++ " failed, result is null from "
            ++ lotusClient.ApiUrl
          ⟨[call], [⟨Level.Error, [err]⟩], Outcome.returned (none, some err)⟩
        | some result =>
          let dataCid := result.Root.Cid
          ⟨[call], [], Outcome.returned (some dataCid, none)⟩

def LotusClientGenCar (cfg : LotusConfig) (http : HttpCall → String)
    (unmarshal : String → Except String LotusJsonRpcResult)
    (srcFilePath destCarFilePath : String) (srcFilePathIsCar : Bool) : Run (Option String) :=
  let lotusClient := LotusGetClient cfg
  let params : Slice Param := none
  let clientFileParam : ClientFileParam := { Path := srcFilePath, IsCAR := srcFilePathIsCar }
  let params := params.append (Param.file clientFileParam)
  let params := params.append (Param.str destCarFilePath)
  let jsonRpcParams : LotusJsonRpcParams :=
    { JsonRpc := LOTUS_JSON_RPC_VERSION
      Method := LOTUS_CLIENT_GEN_CAR
      Params := params
      Id := LOTUS_JSON_RPC_ID }
  let call : HttpCall :=
    ⟨Transport.HttpGet, lotusClient.ApiUrl, some lotusClient.AccessToken, Body.rpc jsonRpcParams⟩
  let response := http call
  if response = "" then
    let err := "failed to generate car, no response"
    ⟨[call], [⟨Level.Error, [err]⟩], Outcome.returned (some err)⟩
  else
    match unmarshal response with
    | Except.error err => ⟨[call], [⟨Level.Error, [err]⟩], Outcome.returned (some err)⟩
    | Except.ok lotusJsonRpcResult =>
      match lotusJsonRpcResult.Error with
      | some e =>
        let err := rpcErrorText e
        ⟨[call], [⟨Level.Error, [err]⟩], Outcome.returned (some err)⟩
      | none => ⟨[call], [], Outcome.returned none⟩

/-- The function `LotusClientStartDeal`. `DURATION` is `constants.DURATION`. The last lines
read `clientStartDeal.Result.Cid` without a nil test, so a nil `Result` ends the call in a
nil-pointer dereference before anything is logged or returned. -/
def LotusClientStartDeal (cfg : LotusConfig) (DURATION : Int) (http : HttpCall → String)
    (unmarshal : String → Except String ClientStartDeal)
    (carFile : FileDesc) (cost : Decimal) (pieceSize : Int) (dealConfig : DealConfig) :
    Run (Option String × Option String) :=
  let lotusClient := LotusGetClient cfg
  let params : Slice Param := none
  let clientStartDealParamData : ClientStartDealParamData :=
    { TransferType := "string value"
      Root := { Cid := carFile.DataCid }
      PieceCid := { Cid := carFile.PieceCid }
      PieceSize := int_of_int64 pieceSize
      RawBlockSize := 42 }
  let clientStartDealParam : ClientStartDealParam :=
    { Data := clientStartDealParamData
      Wallet := dealConfig.SenderWallet
      Miner := dealConfig.MinerFid
      EpochPrice := "2"
      MinBlocksDuration := DURATION
      ProviderCollateral := "0"
      DealStartEpoch := carFile.StartEpoch
      FastRetrieval := dealConfig.FastRetrieval
      VerifiedDeal := dealConfig.VerifiedDeal }
  let params := params.append (Param.startDeal clientStartDealParam)
  let jsonRpcParams : LotusJsonRpcParams :=
    { JsonRpc := LOTUS_JSON_RPC_VERSION
      Method := LOTUS_CLIENT_START_DEAL
      Params := params
      Id := LOTUS_JSON_RPC_ID }
  let call : HttpCall :=
    ⟨Transport.HttpGet, lotusClient.ApiUrl, some lotusClient.AccessToken, Body.rpc jsonRpcParams⟩
  let response := http call
  if response = "" then
    let err := "failed to generate car, no response"
    ⟨[call], [⟨Level.Error, [err]⟩], Outcome.returned (none, some err)⟩
  else
    match unmarshal response with
    | Except.error err => ⟨[call], [⟨Level.Error, [err]⟩], Outcome.returned (none, some err)⟩
    | Except.ok clientStartDeal =>
      match clientStartDeal.Error with
      | some e =>
        let err := rpcErrorText e
        ⟨[call], [⟨Level.Error, [err]⟩], Outcome.returned (none, some err)⟩
      | none =>
        match clientStartDeal.Result with
        | none => ⟨[call], [], Outcome.nilDereference⟩
        | some result =>
          ⟨[call], [⟨Level.Info, ["Cid:", result.Cid]⟩], Outcome.returned (some result.Cid, none)⟩

/-! ## Library functions used by `swan.go` -/

namespace strings

/-- Go's `strings.ToUpper`. A string of ASCII bytes only has its letters `a`..`z` replaced by
`A`..`Z`; any other string is mapped rune by rune through `unicode.ToUpper`, the case table of
the Go library, which is the argument `unicodeToUpper`. -/
def ToUpper (unicodeToUpper : Char → Char) (s : String) : String :=
  if s.data.all (fun c => decide (c.toNat < 128)) then String.mk (s.data.map Char.toUpper)
  else String.mk (s.data.map unicodeToUpper)

/-- Whether `sub` occurs in `cs` as a contiguous block. -/
def containsChars : List Char → List Char → Bool
  | [], sub => sub.isEmpty
  | c :: cs, sub => sub.isPrefixOf (c :: cs) || containsChars cs sub

/-- Go's `strings.Contains`. -/
def Contains (s substr : String) : Bool := containsChars s.data substr.data

end strings

/-- A value of type `interface{}` produced by decoding JSON. -/
inductive Dyn
  | nil
  | bool (b : Bool)
  | number (literal : String)
  | string (s : String)
  | array (items : List Dyn)
  | object (fields : List (String × Dyn))

/-! ## `swan.go` -/

def GET_OFFLINEDEAL_LIMIT_DEFAULT : Int := 50
def RESPONSE_STATUS_SUCCESS : String := "SUCCESS"

structure SwanClient where
  ApiUrl : String
  ApiKey : String
  Token : String
  deriving DecidableEq

/-- The struct `GetOfflineDealData`; `OfflineDeal` stands for `model.OfflineDeal`. -/
structure GetOfflineDealData (OfflineDeal : Type) where
  Deal : Slice OfflineDeal

structure GetOfflineDealResponse (OfflineDeal : Type) where
  Data : GetOfflineDealData OfflineDeal
  Status : String

/-- The struct `UpdateOfflineDealData`; `OfflineDeal` stands for `model.OfflineDeal`. -/
structure UpdateOfflineDealData (OfflineDeal : Type) where
  Deal : OfflineDeal
  Message : String

structure UpdateOfflineDealResponse (OfflineDeal : Type) where
  Data : UpdateOfflineDealData OfflineDeal
  Status : String

/-- Modelled from the spec: `logs.GetLogger().Fatal` of the `logs` package, which is not among
the source files. It writes its operands as one line and terminates the process ("on failure
terminates client construction immediately", "the single condition permitted to terminate the
process immediately rather than return an error"), so nothing after it runs. `calls` are the
HTTP calls issued before. -/
def Fatal {α : Type} (calls : List HttpCall) (args : List String) : Run α :=
  ⟨calls, [⟨Level.Fatal, args⟩], Outcome.exited⟩

/-- The function `SwanGetClient`. `GetFieldStrFromJson` and `GetFieldMapFromJson` are the
helpers of the `utils` package (a nil map is `none`). The type assertion
`jwtToken["jwt"].(string)` panics unless the entry is present and a string. -/
def SwanGetClient (mainConf : MainConfig) (http : HttpCall → String)
    (GetFieldStrFromJson : String → String → String)
    (GetFieldMapFromJson : String → String → Option (List (String × Dyn))) : Run SwanClient :=
  let uri := mainConf.SwanApiUrl ++ "/user/api_keys/jwt"
  let data : TokenAccessInfo :=
    { ApiKey := mainConf.SwanApiKey, AccessToken := mainConf.SwanAccessToken }
  let call : HttpCall := ⟨Transport.HttpPostNoToken, uri, none, Body.credentials data⟩
  let response := http call
  if strings.Contains response "fail" then
    let message := GetFieldStrFromJson response "message"
    let status := GetFieldStrFromJson response "status"
    Fatal [call] [status, ": ", message]
  else
    match GetFieldMapFromJson response "data" with
    | none => Fatal [call] ["Error: fail to connect swan api"]
    | some jwtToken =>
      match jwtToken.lookup "jwt" with
      | some (Dyn.string jwt) =>
        let swanClient : SwanClient :=
          { ApiUrl := mainConf.SwanApiUrl
            ApiKey := mainConf.SwanApiKey
            Token := jwt }
        ⟨[call], [], Outcome.returned swanClient⟩
      | _ => ⟨[call], [], Outcome.failedTypeAssertion⟩

def SwanClient.SwanGetOfflineDeals {OfflineDeal : Type} (swanClient : SwanClient)
    (unicodeToUpper : Char → Char) (http : HttpCall → String)
    (unmarshal : String → Except String (GetOfflineDealResponse OfflineDeal))
    (minerFid status : String) (limit : List String) : Run (Slice OfflineDeal) :=
  let rowLimit := toString GET_OFFLINEDEAL_LIMIT_DEFAULT
  let rowLimit := if h : limit.length > 0 then limit[0] else rowLimit
  let urlStr := swanClient.ApiUrl ++ "/offline_deals/" ++ minerFid ++ "?deal_status=" ++ status
    ++ "&limit=" ++ rowLimit ++ "&offset=0"
  let call : HttpCall := ⟨Transport.HttpGet, urlStr, some swanClient.Token, Body.text ""⟩
  let response := http call
  match unmarshal response with
  | Except.error err => ⟨[call], [⟨Level.Error, [err]⟩], Outcome.returned none⟩
  | Except.ok getOfflineDealResponse =>
    if strings.ToUpper unicodeToUpper getOfflineDealResponse.Status ≠ RESPONSE_STATUS_SUCCESS then
      ⟨[call], [⟨Level.Error, ["Get offline deal with status ", status, " failed"]⟩],
        Outcome.returned none⟩
    else
      ⟨[call], [], Outcome.returned getOfflineDealResponse.Data.Deal⟩

def SwanClient.SwanUpdateOfflineDealStatus {OfflineDeal : Type} (swanClient : SwanClient)
    (unicodeToUpper : Char → Char) (http : HttpCall → String)
    (unmarshal : String → Except String (UpdateOfflineDealResponse OfflineDeal))
    (dealId : Int) (status : String) (statusInfo : List String) : Run Bool :=
  if len status = 0 then
    ⟨[], [⟨Level.Error, ["Please provide status"]⟩], Outcome.returned false⟩
  else
    let apiUrl := swanClient.ApiUrl ++ "/my_miner/deals/" ++ toString dealId
    let params := Values.empty
    let params := params.Add "status" status
    let params := if h : statusInfo.length > 0 then params.Add "note" statusInfo[0] else params
    let params := if h : statusInfo.length > 1 then params.Add "file_path" statusInfo[1] else params
    let params := if h : statusInfo.length > 2 then params.Add "file_size" statusInfo[2] else params
    let call : HttpCall := ⟨Transport.HttpPut, apiUrl, some swanClient.Token, Body.formReader params⟩
    let response := http call
    match unmarshal response with
    | Except.error err => ⟨[call], [⟨Level.Error, [err]⟩], Outcome.returned false⟩
    | Except.ok updateOfflineDealResponse =>
      if strings.ToUpper unicodeToUpper updateOfflineDealResponse.Status ≠ RESPONSE_STATUS_SUCCESS then
        ⟨[call], [⟨Level.Error, ["Update offline deal with status ", status, " failed.",
          updateOfflineDealResponse.Data.Message]⟩], Outcome.returned false⟩
      else
        ⟨[call], [], Outcome.returned true⟩

/-! ## Sample values -/

def sampleLotusConfig : LotusConfig :=
  { ApiUrl := "http://lotus/rpc/v0", AccessToken := "tok"
    MinerApiUrl := "http://miner/rpc/v0", MinerAccessToken := "mtok" }


/-! ## Definitions used in the statements -/

/-- The JSON-RPC requests among the HTTP calls of a run, in the order issued. -/
def rpcRequests {α : Type} (run : Run α) : List LotusJsonRpcParams :=
  run.calls.filterMap (fun call =>
    match call.body with
    | Body.rpc request => some request
    | _ => none)

/-- The decoded form of the response `{result:{Root:{"/":"bafy123"}, ImportID:5}}`. -/
def importEnvelope_bafy123 : ClientImport :=
  { Id := 0, JsonRpc := "", Error := none
    Result := some { Root := ⟨"bafy123"⟩, ImportID := 5 } }

/-- An ask response whose `error` and `result` are both populated. -/
def askResponse_error_and_result : String :=
  "\x7b\"jsonrpc\":\"2.0\",\"id\":7878,\"error\":\x7b\"code\":1,\"message\":\"miner offline\"\x7d,"
    ++ "\"result\":\x7b\"Ask\":\x7b\"Price\":\"500\",\"VerifiedPrice\":\"50\",\"MinPieceSize\":256,"
    ++ "\"MaxPieceSize\":34359738368,\"Miner\":\"f01000\",\"Timestamp\":1,\"Expiry\":2,"
    ++ "\"SeqNo\":3\x7d\x7d\x7d"

/-- The decoded form of `askResponse_error_and_result`. -/
def askEnvelope_error_and_result : MarketGetAsk :=
  { Id := 7878, JsonRpc := "2.0", Error := some ⟨1, "miner offline"⟩
    Result := some ⟨⟨"500", "50", 256, 34359738368, "f01000", 1, 2, 3⟩⟩ }

/-- A commitment response whose `error` and `result` are both populated. -/
def commPResponse_error_and_result : String :=
  "\x7b\"jsonrpc\":\"2.0\",\"id\":7878,\"error\":\x7b\"code\":1,\"message\":\"bad car\"\x7d,"
    ++ "\"result\":\x7b\"Root\":\x7b\"/\":\"baga1\"\x7d,\"Size\":2048\x7d\x7d"

/-- The decoded form of `commPResponse_error_and_result`. -/
def commPEnvelope_error_and_result : ClientCalcCommP :=
  { Id := 7878, JsonRpc := "2.0", Error := some ⟨1, "bad car"⟩
    Result := some ⟨⟨"baga1"⟩, 2048⟩ }

/-- A deal-proposal response with `error` absent and `result` null. -/
def startDealResponse_null_result : String :=
  "\x7b\"jsonrpc\":\"2.0\",\"id\":7878,\"result\":null\x7d"

/-- The decoded form of `startDealResponse_null_result`. -/
def startDealEnvelope_null_result : ClientStartDeal :=
  { Id := 7878, JsonRpc := "2.0", Error := none, Result := none }

/-- Two strings are equal case-insensitively when their upper-case forms are the same
string. -/
def EqualsIgnoreCase (unicodeToUpper : Char → Char) (a b : String) : Prop :=
  strings.ToUpper unicodeToUpper a = strings.ToUpper unicodeToUpper b

/-- The form of a status update, written out: `status`, then one entry for each of the first
three elements of `statusInfo` under the keys `note`, `file_path`, `file_size`. -/
def statusForm (status : String) (statusInfo : List String) : Values :=
  ⟨("status", [status]) ::
    List.zipWith (fun key value => (key, [value])) ["note", "file_path", "file_size"] statusInfo⟩

/-- The `utils.GetFieldStrFromJson` results on the body `{"status":"fail","message":"bad key"}`. -/
def sampleGetFieldStr (_response key : String) : String :=
  if key = "status" then "fail" else if key = "message" then "bad key" else ""

/-! # Theorems -/

/-! ## The request each RPC operation issues -/

theorem LotusVersion_calls (cfg : LotusConfig) (http : HttpCall → String)
    (unmarshal : String → Except String LotusVersionResponse) :
    (LotusVersion cfg http unmarshal).calls =
      [⟨Transport.HttpGetNoToken, cfg.MinerApiUrl, none,
        Body.rpc ⟨"2.0", "Filecoin.Version", none, 7878⟩⟩] := by
  unfold LotusVersion
  simp only []
  split
  · rfl
  · split
    · rfl
    · split <;> rfl

theorem LotusMarketGetAsk_calls (cfg : LotusConfig) (http : HttpCall → String)
    (unmarshal : String → Except String MarketGetAsk) :
    (LotusMarketGetAsk cfg http unmarshal).calls =
      [⟨Transport.HttpGetNoToken, cfg.MinerApiUrl, none,
        Body.rpc ⟨"2.0", "Filecoin.MarketGetAsk", none, 7878⟩⟩] := by
  unfold LotusMarketGetAsk
  simp only []
  split
  · rfl
  · split
    · rfl
    · split <;> rfl

theorem LotusClientCalcCommP_calls (cfg : LotusConfig) (http : HttpCall → String)
    (unmarshal : String → Except String ClientCalcCommP) (filepath : String) :
    (LotusClientCalcCommP cfg http unmarshal filepath).calls =
      [⟨Transport.HttpPost, cfg.ApiUrl, some cfg.AccessToken,
        Body.rpc ⟨"2.0", "Filecoin.ClientCalcCommP", some [Param.str filepath], 7878⟩⟩] := by
  unfold LotusClientCalcCommP
  simp only []
  split
  · rfl
  · split
    · rfl
    · split <;> rfl

theorem LotusClientImport_calls (cfg : LotusConfig) (http : HttpCall → String)
    (unmarshal : String → Except String ClientImport) (filepath : String) (isCar : Bool) :
    (LotusClientImport cfg http unmarshal filepath isCar).calls =
      [⟨Transport.HttpGet, cfg.ApiUrl, some cfg.AccessToken,
        Body.rpc ⟨"2.0", "Filecoin.ClientImport", some [Param.file ⟨filepath, isCar⟩], 7878⟩⟩] := by
  unfold LotusClientImport
  simp only []
  split
  · rfl
  · split
    · rfl
    · split
      · rfl
      · split <;> rfl

theorem LotusClientGenCar_calls (cfg : LotusConfig) (http : HttpCall → String)
    (unmarshal : String → Except String LotusJsonRpcResult)
    (srcFilePath destCarFilePath : String) (srcFilePathIsCar : Bool) :
    (LotusClientGenCar cfg http unmarshal srcFilePath destCarFilePath srcFilePathIsCar).calls =
      [⟨Transport.HttpGet, cfg.ApiUrl, some cfg.AccessToken,
        Body.rpc ⟨"2.0", "Filecoin.ClientGenCar",
          some [Param.file ⟨srcFilePath, srcFilePathIsCar⟩, Param.str destCarFilePath], 7878⟩⟩] := by
  unfold LotusClientGenCar
  simp only []
  split
  · rfl
  · split
    · rfl
    · split <;> rfl

theorem LotusClientStartDeal_calls (cfg : LotusConfig) (DURATION : Int) (http : HttpCall → String)
    (unmarshal : String → Except String ClientStartDeal)
    (carFile : FileDesc) (cost : Decimal) (pieceSize : Int) (dealConfig : DealConfig) :
    (LotusClientStartDeal cfg DURATION http unmarshal carFile cost pieceSize dealConfig).calls =
      [⟨Transport.HttpGet, cfg.ApiUrl, some cfg.AccessToken,
        Body.rpc ⟨"2.0", "Filecoin.ClientStartDeal",
          some [Param.startDeal
            { Data :=
                { TransferType := "string value"
                  Root := ⟨carFile.DataCid⟩
                  PieceCid := ⟨carFile.PieceCid⟩
                  PieceSize := int_of_int64 pieceSize
                  RawBlockSize := 42 }
              Wallet := dealConfig.SenderWallet
              Miner := dealConfig.MinerFid
              EpochPrice := "2"
              MinBlocksDuration := DURATION
              ProviderCollateral := "0"
              DealStartEpoch := carFile.StartEpoch
              FastRetrieval := dealConfig.FastRetrieval
              VerifiedDeal := dealConfig.VerifiedDeal }], 7878⟩⟩] := by
  unfold LotusClientStartDeal
  simp only []
  split
  · rfl
  · split
    · rfl
    · split
      · rfl
      · split <;> rfl

/-- On an `int64` value the conversion to `int` changes nothing. -/
theorem int_of_int64_eq (x : Int) (hx : IsInt64 x) : int_of_int64 x = x := by
  unfold IsInt64 at hx
  unfold int_of_int64 wrapSigned intBits
  norm_num at hx ⊢
  omega

/-! ## Import -/

/-- C6: when the chain node's response decodes to an envelope with no error and a non-null
result, `LotusClientImport` returns exactly the `/` field of the result's `Root` and a nil
error, for every path and `isCar` flag. -/
theorem C6_import_returns_root_cid (cfg : LotusConfig) (http : HttpCall → String)
    (unmarshal : String → Except String ClientImport) (filepath : String) (isCar : Bool)
    (envelope : ClientImport) (result : ClientImportResult)
    (hresp : ∀ call ∈ (LotusClientImport cfg http unmarshal filepath isCar).calls,
      http call ≠ "" ∧ unmarshal (http call) = Except.ok envelope)
    (herr : envelope.Error = none) (hres : envelope.Result = some result) :
    (LotusClientImport cfg http unmarshal filepath isCar).outcome
      = Outcome.returned (some result.Root.Cid, none) := by
  rw [LotusClientImport_calls] at hresp
  simp only [List.mem_singleton, forall_eq] at hresp
  obtain ⟨hne, hok⟩ := hresp
  unfold LotusClientImport
  simp only [LotusGetClient, LOTUS_JSON_RPC_VERSION, LOTUS_CLIENT_IMPORT, LOTUS_JSON_RPC_ID,
    Slice.append]
  rw [if_neg hne, hok]
  simp only [herr, hres]

theorem C6_import_returns_root_cid_witness :
    (LotusClientImport sampleLotusConfig
        (fun _ => "\x7b\"result\":\x7b\"Root\":\x7b\"/\":\"bafy123\"\x7d,\"ImportID\":5\x7d\x7d")
        (fun _ => Except.ok importEnvelope_bafy123) "/tmp/a.car" true).outcome
      = Outcome.returned (some "bafy123", none) :=
  C6_import_returns_root_cid sampleLotusConfig _ _ "/tmp/a.car" true importEnvelope_bafy123
    { Root := ⟨"bafy123"⟩, ImportID := 5 }
    (fun _ _ => ⟨by decide, rfl⟩) rfl rfl

/-! ## The shape of the requests -/

/-- C7 (as amended): every RPC request the adapter builds has protocol version "2.0", the
fixed id 7878 and the method's name, and its parameter list is `[filePath]` for commitment
calculation, `[{Path, IsCAR}]` for import, `[{Path, IsCAR}, destPath]` for archive
generation, `[StartDealParameters]` for deal proposal, and the nil slice (JSON `null`) for
the ask query and the version query. -/
theorem C7_request_shapes (cfg : LotusConfig) (DURATION : Int) (http : HttpCall → String) :
    (∀ unmarshal, ∃ request, rpcRequests (LotusVersion cfg http unmarshal) = [request] ∧
      request.JsonRpc = "2.0" ∧ request.Id = 7878 ∧ request.Method = "Filecoin.Version" ∧
      request.Params = none) ∧
    (∀ unmarshal, ∃ request, rpcRequests (LotusMarketGetAsk cfg http unmarshal) = [request] ∧
      request.JsonRpc = "2.0" ∧ request.Id = 7878 ∧ request.Method = "Filecoin.MarketGetAsk" ∧
      request.Params = none) ∧
    (∀ unmarshal filepath, ∃ request,
      rpcRequests (LotusClientCalcCommP cfg http unmarshal filepath) = [request] ∧
      request.JsonRpc = "2.0" ∧ request.Id = 7878 ∧ request.Method = "Filecoin.ClientCalcCommP" ∧
      request.Params = some [Param.str filepath]) ∧
    (∀ unmarshal filepath isCar, ∃ request,
      rpcRequests (LotusClientImport cfg http unmarshal filepath isCar) = [request] ∧
      request.JsonRpc = "2.0" ∧ request.Id = 7878 ∧ request.Method = "Filecoin.ClientImport" ∧
      request.Params = some [Param.file ⟨filepath, isCar⟩]) ∧
    (∀ unmarshal srcFilePath destCarFilePath srcFilePathIsCar, ∃ request,
      rpcRequests (LotusClientGenCar cfg http unmarshal srcFilePath destCarFilePath
        srcFilePathIsCar) = [request] ∧
      request.JsonRpc = "2.0" ∧ request.Id = 7878 ∧ request.Method = "Filecoin.ClientGenCar" ∧
      request.Params = some [Param.file ⟨srcFilePath, srcFilePathIsCar⟩, Param.str destCarFilePath]) ∧
    (∀ unmarshal carFile cost pieceSize dealConfig, ∃ request startDealParameters,
      rpcRequests (LotusClientStartDeal cfg DURATION http unmarshal carFile cost pieceSize
        dealConfig) = [request] ∧
      request.JsonRpc = "2.0" ∧ request.Id = 7878 ∧ request.Method = "Filecoin.ClientStartDeal" ∧
      request.Params = some [Param.startDeal startDealParameters]) := by
  refine ⟨?_, ?_, ?_, ?_, ?_, ?_⟩
  · intro unmarshal
    exact ⟨_, by rw [rpcRequests, LotusVersion_calls]; rfl, rfl, rfl, rfl, rfl⟩
  · intro unmarshal
    exact ⟨_, by rw [rpcRequests, LotusMarketGetAsk_calls]; rfl, rfl, rfl, rfl, rfl⟩
  · intro unmarshal filepath
    exact ⟨_, by rw [rpcRequests, LotusClientCalcCommP_calls]; rfl, rfl, rfl, rfl, rfl⟩
  · intro unmarshal filepath isCar
    exact ⟨_, by rw [rpcRequests, LotusClientImport_calls]; rfl, rfl, rfl, rfl, rfl⟩
  · intro unmarshal srcFilePath destCarFilePath srcFilePathIsCar
    exact ⟨_, by rw [rpcRequests, LotusClientGenCar_calls]; rfl, rfl, rfl, rfl, rfl⟩
  · intro unmarshal carFile cost pieceSize dealConfig
    exact ⟨_, _, by rw [rpcRequests, LotusClientStartDeal_calls]; rfl, rfl, rfl, rfl, rfl⟩

/-- C7 fails as stated: the parameter list of the version query and of the ask query is the
nil slice, which is written as `null`, and not the empty list `[]`. -/
theorem C7_counterexample_nil_params :
    (rpcRequests (LotusVersion sampleLotusConfig (fun _ => "") (fun _ => Except.error "")) ).map
        (fun request => request.Params) = [none] ∧
    (rpcRequests (LotusMarketGetAsk sampleLotusConfig (fun _ => "")
        (fun _ => Except.error ""))).map (fun request => request.Params) = [none] ∧
    (none : Slice Param) ≠ some [] := by
  decide

/-! ## Deal proposal -/

/-- C5: the single `ClientStartDealParam` that `LotusClientStartDeal` places in the outgoing
parameter list carries `Root`, `PieceCid`, `PieceSize`, `Miner` and `Wallet` exactly as
given by the car file, the piece size and the deal configuration, and `RawBlockSize` is the
constant 42 whatever the input. -/
theorem C5_start_deal_parameters (cfg : LotusConfig) (DURATION : Int) (http : HttpCall → String)
    (unmarshal : String → Except String ClientStartDeal)
    (carFile : FileDesc) (cost : Decimal) (pieceSize : Int) (dealConfig : DealConfig)
    (hsize : IsInt64 pieceSize) :
    ∃ request p,
      rpcRequests (LotusClientStartDeal cfg DURATION http unmarshal carFile cost pieceSize
        dealConfig) = [request] ∧
      request.Params = some [Param.startDeal p] ∧
      p.Data.Root.Cid = carFile.DataCid ∧
      p.Data.PieceCid.Cid = carFile.PieceCid ∧
      p.Data.PieceSize = pieceSize ∧
      p.Miner = dealConfig.MinerFid ∧
      p.Wallet = dealConfig.SenderWallet ∧
      p.Data.RawBlockSize = 42 := by
  refine ⟨_, _, by rw [rpcRequests, LotusClientStartDeal_calls]; rfl, rfl, rfl, rfl, ?_, rfl, rfl,
    rfl⟩
  exact int_of_int64_eq pieceSize hsize

theorem C5_start_deal_parameters_witness :
    IsInt64 1024 ∧
    ∃ request p,
      rpcRequests (LotusClientStartDeal sampleLotusConfig 518400 (fun _ => "")
        (fun _ => Except.error "") ⟨"bafy1", "bafy2", 0⟩ ⟨0, 0⟩ 1024
        ⟨"f3abc", "f01000", false, false⟩) = [request] ∧
      request.Params = some [Param.startDeal p] ∧
      p.Data.Root.Cid = "bafy1" ∧
      p.Data.PieceCid.Cid = "bafy2" ∧
      p.Data.PieceSize = 1024 ∧
      p.Miner = "f01000" ∧
      p.Wallet = "f3abc" ∧
      p.Data.RawBlockSize = 42 :=
  ⟨by unfold IsInt64; decide,
    C5_start_deal_parameters sampleLotusConfig 518400 (fun _ => "") (fun _ => Except.error "")
      ⟨"bafy1", "bafy2", 0⟩ ⟨0, 0⟩ 1024 ⟨"f3abc", "f01000", false, false⟩
      (by unfold IsInt64; decide)⟩

/-- C9: what `LotusClientStartDeal` does is independent of its `cost` argument: two calls
that differ only in `cost` issue identical requests (and end identically), and the request
always has `EpochPrice` "2", `ProviderCollateral` "0", `TransferType` "string value" and
`MinBlocksDuration` equal to `DURATION`. -/
theorem C9_cost_is_ignored (cfg : LotusConfig) (DURATION : Int) (http : HttpCall → String)
    (unmarshal : String → Except String ClientStartDeal)
    (carFile : FileDesc) (pieceSize : Int) (dealConfig : DealConfig) (cost₁ cost₂ : Decimal) :
    rpcRequests (LotusClientStartDeal cfg DURATION http unmarshal carFile cost₁ pieceSize
        dealConfig)
      = rpcRequests (LotusClientStartDeal cfg DURATION http unmarshal carFile cost₂ pieceSize
        dealConfig) ∧
    LotusClientStartDeal cfg DURATION http unmarshal carFile cost₁ pieceSize dealConfig
      = LotusClientStartDeal cfg DURATION http unmarshal carFile cost₂ pieceSize dealConfig ∧
    ∃ request p,
      rpcRequests (LotusClientStartDeal cfg DURATION http unmarshal carFile cost₁ pieceSize
        dealConfig) = [request] ∧
      request.Params = some [Param.startDeal p] ∧
      p.EpochPrice = "2" ∧
      p.ProviderCollateral = "0" ∧
      p.Data.TransferType = "string value" ∧
      p.MinBlocksDuration = DURATION := by
  refine ⟨rfl, rfl, _, _, by rw [rpcRequests, LotusClientStartDeal_calls]; rfl, rfl, rfl, rfl, rfl,
    rfl⟩

/-! ## A populated `error` field -/

/-- The function `LotusVersion` fails whenever the decoded envelope carries an error. -/
theorem LotusVersion_error_fails (cfg : LotusConfig) (http : HttpCall → String)
    (unmarshal : String → Except String LotusVersionResponse)
    (envelope : LotusVersionResponse) (e : JsonRpcError)
    (hresp : ∀ call ∈ (LotusVersion cfg http unmarshal).calls,
      http call ≠ "" ∧ unmarshal (http call) = Except.ok envelope)
    (herr : envelope.Error = some e) :
    (LotusVersion cfg http unmarshal).outcome = Outcome.returned (none, some (rpcErrorText e)) := by
  rw [LotusVersion_calls] at hresp
  simp only [List.mem_singleton, forall_eq] at hresp
  obtain ⟨hne, hok⟩ := hresp
  unfold LotusVersion
  simp only [LotusGetClient, LOTUS_JSON_RPC_VERSION, LOTUS_VERSION, LOTUS_JSON_RPC_ID]
  rw [if_neg hne, hok]
  simp only [herr]

/-- The function `LotusClientImport` fails whenever the decoded envelope carries an error, whatever its
result field holds. -/
theorem LotusClientImport_error_fails (cfg : LotusConfig) (http : HttpCall → String)
    (unmarshal : String → Except String ClientImport) (filepath : String) (isCar : Bool)
    (envelope : ClientImport) (e : JsonRpcError)
    (hresp : ∀ call ∈ (LotusClientImport cfg http unmarshal filepath isCar).calls,
      http call ≠ "" ∧ unmarshal (http call) = Except.ok envelope)
    (herr : envelope.Error = some e) :
    ∃ err, (LotusClientImport cfg http unmarshal filepath isCar).outcome
      = Outcome.returned (none, some err) := by
  rw [LotusClientImport_calls] at hresp
  simp only [List.mem_singleton, forall_eq] at hresp
  obtain ⟨hne, hok⟩ := hresp
  unfold LotusClientImport
  simp only [LotusGetClient, LOTUS_JSON_RPC_VERSION, LOTUS_CLIENT_IMPORT, LOTUS_JSON_RPC_ID,
    Slice.append]
  rw [if_neg hne, hok]
  simp only [herr]
  exact ⟨_, rfl⟩

/-- The function `LotusClientGenCar` fails whenever the decoded envelope carries an error. -/
theorem LotusClientGenCar_error_fails (cfg : LotusConfig) (http : HttpCall → String)
    (unmarshal : String → Except String LotusJsonRpcResult)
    (srcFilePath destCarFilePath : String) (srcFilePathIsCar : Bool)
    (envelope : LotusJsonRpcResult) (e : JsonRpcError)
    (hresp : ∀ call ∈
        (LotusClientGenCar cfg http unmarshal srcFilePath destCarFilePath srcFilePathIsCar).calls,
      http call ≠ "" ∧ unmarshal (http call) = Except.ok envelope)
    (herr : envelope.Error = some e) :
    (LotusClientGenCar cfg http unmarshal srcFilePath destCarFilePath srcFilePathIsCar).outcome
      = Outcome.returned (some (rpcErrorText e)) := by
  rw [LotusClientGenCar_calls] at hresp
  simp only [List.mem_singleton, forall_eq] at hresp
  obtain ⟨hne, hok⟩ := hresp
  unfold LotusClientGenCar
  simp only [LotusGetClient, LOTUS_JSON_RPC_VERSION, LOTUS_CLIENT_GEN_CAR, LOTUS_JSON_RPC_ID,
    Slice.append, List.singleton_append]
  rw [if_neg hne, hok]
  simp only [herr]

/-- The function `LotusClientStartDeal` fails whenever the decoded envelope carries an error, whatever its
result field holds. -/
theorem LotusClientStartDeal_error_fails (cfg : LotusConfig) (DURATION : Int)
    (http : HttpCall → String) (unmarshal : String → Except String ClientStartDeal)
    (carFile : FileDesc) (cost : Decimal) (pieceSize : Int) (dealConfig : DealConfig)
    (envelope : ClientStartDeal) (e : JsonRpcError)
    (hresp : ∀ call ∈
        (LotusClientStartDeal cfg DURATION http unmarshal carFile cost pieceSize dealConfig).calls,
      http call ≠ "" ∧ unmarshal (http call) = Except.ok envelope)
    (herr : envelope.Error = some e) :
    (LotusClientStartDeal cfg DURATION http unmarshal carFile cost pieceSize dealConfig).outcome
      = Outcome.returned (none, some (rpcErrorText e)) := by
  rw [LotusClientStartDeal_calls] at hresp
  simp only [List.mem_singleton, forall_eq] at hresp
  obtain ⟨hne, hok⟩ := hresp
  unfold LotusClientStartDeal
  simp only [LotusGetClient, LOTUS_JSON_RPC_VERSION, LOTUS_CLIENT_START_DEAL, LOTUS_JSON_RPC_ID,
    Slice.append]
  rw [if_neg hne, hok]
  simp only [herr]

/-- The function `LotusMarketGetAsk` never reads the error field: with a non-null result it returns the
ask, whatever the error field holds. -/
theorem LotusMarketGetAsk_ignores_error (cfg : LotusConfig) (http : HttpCall → String)
    (unmarshal : String → Except String MarketGetAsk)
    (envelope : MarketGetAsk) (result : MarketGetAskResult)
    (hresp : ∀ call ∈ (LotusMarketGetAsk cfg http unmarshal).calls,
      http call ≠ "" ∧ unmarshal (http call) = Except.ok envelope)
    (hres : envelope.Result = some result) :
    LotusMarketGetAsk cfg http unmarshal
      = ⟨(LotusMarketGetAsk cfg http unmarshal).calls, [], Outcome.returned (some result.Ask)⟩ := by
  rw [LotusMarketGetAsk_calls] at hresp ⊢
  simp only [List.mem_singleton, forall_eq] at hresp
  obtain ⟨hne, hok⟩ := hresp
  unfold LotusMarketGetAsk
  simp only [LotusGetClient, LOTUS_JSON_RPC_VERSION, LOTUS_MARKET_GET_ASK, LOTUS_JSON_RPC_ID]
  rw [if_neg hne, hok]
  simp only [hres]

/-- The function `LotusClientCalcCommP` never reads the error field: with a non-null result it returns the
piece CID, whatever the error field holds. -/
theorem LotusClientCalcCommP_ignores_error (cfg : LotusConfig) (http : HttpCall → String)
    (unmarshal : String → Except String ClientCalcCommP) (filepath : String)
    (envelope : ClientCalcCommP) (result : ClientCalcCommPResult)
    (hresp : ∀ call ∈ (LotusClientCalcCommP cfg http unmarshal filepath).calls,
      http call ≠ "" ∧ unmarshal (http call) = Except.ok envelope)
    (hres : envelope.Result = some result) :
    LotusClientCalcCommP cfg http unmarshal filepath
      = ⟨(LotusClientCalcCommP cfg http unmarshal filepath).calls, [],
          Outcome.returned (some result.Root.Cid)⟩ := by
  rw [LotusClientCalcCommP_calls] at hresp ⊢
  simp only [List.mem_singleton, forall_eq] at hresp
  obtain ⟨hne, hok⟩ := hresp
  unfold LotusClientCalcCommP
  simp only [LotusGetClient, LOTUS_JSON_RPC_VERSION, LOTUS_CLIENT_CALC_COMM_P, LOTUS_JSON_RPC_ID,
    Slice.append]
  rw [if_neg hne, hok]
  simp only [hres]

/-- C1 (the code at the failing input): on an envelope whose error and result are both
populated, `LotusMarketGetAsk` returns the ask and `LotusClientCalcCommP` the piece CID, as
on success, and log nothing. -/
theorem C1_error_not_checked_by_ask_and_commP :
    (LotusMarketGetAsk sampleLotusConfig (fun _ => askResponse_error_and_result)
        (fun _ => Except.ok askEnvelope_error_and_result)).outcome
      = Outcome.returned (some ⟨"500", "50", 256, 34359738368, "f01000", 1, 2, 3⟩) ∧
    (LotusMarketGetAsk sampleLotusConfig (fun _ => askResponse_error_and_result)
        (fun _ => Except.ok askEnvelope_error_and_result)).logs = [] ∧
    (LotusClientCalcCommP sampleLotusConfig (fun _ => commPResponse_error_and_result)
        (fun _ => Except.ok commPEnvelope_error_and_result) "/tmp/a.car").outcome
      = Outcome.returned (some "baga1") ∧
    (LotusClientCalcCommP sampleLotusConfig (fun _ => commPResponse_error_and_result)
        (fun _ => Except.ok commPEnvelope_error_and_result) "/tmp/a.car").logs = [] := by
  decide

/-! ## A null result -/

/-- The function `LotusMarketGetAsk` returns nil on a null result. -/
theorem LotusMarketGetAsk_null_result_fails (cfg : LotusConfig) (http : HttpCall → String)
    (unmarshal : String → Except String MarketGetAsk) (envelope : MarketGetAsk)
    (hresp : ∀ call ∈ (LotusMarketGetAsk cfg http unmarshal).calls,
      unmarshal (http call) = Except.ok envelope)
    (hres : envelope.Result = none) :
    (LotusMarketGetAsk cfg http unmarshal).outcome = Outcome.returned none := by
  rw [LotusMarketGetAsk_calls] at hresp
  simp only [List.mem_singleton, forall_eq] at hresp
  unfold LotusMarketGetAsk
  simp only [LotusGetClient, LOTUS_JSON_RPC_VERSION, LOTUS_MARKET_GET_ASK, LOTUS_JSON_RPC_ID]
  split
  · rfl
  · rw [hresp]
    simp only [hres]

/-- The function `LotusClientCalcCommP` returns nil on a null result. -/
theorem LotusClientCalcCommP_null_result_fails (cfg : LotusConfig) (http : HttpCall → String)
    (unmarshal : String → Except String ClientCalcCommP) (filepath : String)
    (envelope : ClientCalcCommP)
    (hresp : ∀ call ∈ (LotusClientCalcCommP cfg http unmarshal filepath).calls,
      unmarshal (http call) = Except.ok envelope)
    (hres : envelope.Result = none) :
    (LotusClientCalcCommP cfg http unmarshal filepath).outcome = Outcome.returned none := by
  rw [LotusClientCalcCommP_calls] at hresp
  simp only [List.mem_singleton, forall_eq] at hresp
  unfold LotusClientCalcCommP
  simp only [LotusGetClient, LOTUS_JSON_RPC_VERSION, LOTUS_CLIENT_CALC_COMM_P, LOTUS_JSON_RPC_ID,
    Slice.append]
  split
  · rfl
  · rw [hresp]
    simp only [hres]

/-- The function `LotusClientImport` returns a nil result and an error on a null result. -/
theorem LotusClientImport_null_result_fails (cfg : LotusConfig) (http : HttpCall → String)
    (unmarshal : String → Except String ClientImport) (filepath : String) (isCar : Bool)
    (envelope : ClientImport)
    (hresp : ∀ call ∈ (LotusClientImport cfg http unmarshal filepath isCar).calls,
      unmarshal (http call) = Except.ok envelope)
    (hres : envelope.Result = none) :
    ∃ err, (LotusClientImport cfg http unmarshal filepath isCar).outcome
      = Outcome.returned (none, some err) := by
  rw [LotusClientImport_calls] at hresp
  simp only [List.mem_singleton, forall_eq] at hresp
  unfold LotusClientImport
  simp only [LotusGetClient, LOTUS_JSON_RPC_VERSION, LOTUS_CLIENT_IMPORT, LOTUS_JSON_RPC_ID,
    Slice.append]
  split
  · exact ⟨_, rfl⟩
  · rw [hresp]
    simp only [hres]
    split <;> exact ⟨_, rfl⟩

/-- The function `LotusClientStartDeal` reads through the result without a nil test: on every non-empty
response that decodes to an envelope with error null and result null the call ends in a
nil-pointer dereference. -/
theorem LotusClientStartDeal_null_result_panics (cfg : LotusConfig) (DURATION : Int)
    (http : HttpCall → String) (unmarshal : String → Except String ClientStartDeal)
    (carFile : FileDesc) (cost : Decimal) (pieceSize : Int) (dealConfig : DealConfig)
    (envelope : ClientStartDeal)
    (hresp : ∀ call ∈
        (LotusClientStartDeal cfg DURATION http unmarshal carFile cost pieceSize dealConfig).calls,
      http call ≠ "" ∧ unmarshal (http call) = Except.ok envelope)
    (herr : envelope.Error = none) (hres : envelope.Result = none) :
    (LotusClientStartDeal cfg DURATION http unmarshal carFile cost pieceSize dealConfig).outcome
      = Outcome.nilDereference := by
  rw [LotusClientStartDeal_calls] at hresp
  simp only [List.mem_singleton, forall_eq] at hresp
  obtain ⟨hne, hok⟩ := hresp
  unfold LotusClientStartDeal
  simp only [LotusGetClient, LOTUS_JSON_RPC_VERSION, LOTUS_CLIENT_START_DEAL, LOTUS_JSON_RPC_ID,
    Slice.append]
  rw [if_neg hne, hok]
  simp only [herr, hres]

/-- C2 (the code at the failing input): on a valid envelope with error null and result null
`LotusClientStartDeal` does not return a failure; it dereferences the nil result. -/
theorem C2_start_deal_dereferences_nil_result :
    (LotusClientStartDeal sampleLotusConfig 518400 (fun _ => startDealResponse_null_result)
        (fun _ => Except.ok startDealEnvelope_null_result)
        ⟨"bafy1", "bafy2", 0⟩ ⟨0, 0⟩ 1024 ⟨"f3abc", "f01000", false, false⟩).outcome
      = Outcome.nilDereference := by
  decide

/-! ## Facts about the library functions -/

theorem len_eq_zero_iff (s : String) : len s = 0 ↔ s = "" := by
  constructor
  · intro h
    rcases s with ⟨cs⟩
    cases cs with
    | nil => rfl
    | cons c cs =>
      exfalso
      unfold len at h
      simp [String.utf8ByteSize, String.utf8ByteSize.go] at h
      have := Char.utf8Size_pos c
      omega
  · rintro rfl
    rfl

theorem ToUpper_SUCCESS (unicodeToUpper : Char → Char) :
    strings.ToUpper unicodeToUpper "SUCCESS" = "SUCCESS" := by
  rfl

theorem equalsIgnoreCase_SUCCESS_iff (unicodeToUpper : Char → Char) (s : String) :
    EqualsIgnoreCase unicodeToUpper s "SUCCESS"
      ↔ strings.ToUpper unicodeToUpper s = RESPONSE_STATUS_SUCCESS := by
  unfold EqualsIgnoreCase RESPONSE_STATUS_SUCCESS
  rw [ToUpper_SUCCESS]

/-- On a status of ASCII characters only, equality with "SUCCESS" up to case does not depend
on the Unicode case table: it says that the letters, upper-cased one by one, spell
`SUCCESS`. -/
theorem equalsIgnoreCase_SUCCESS_ascii (unicodeToUpper : Char → Char) (s : String)
    (hascii : s.data.all (fun c => decide (c.toNat < 128)) = true) :
    EqualsIgnoreCase unicodeToUpper s "SUCCESS"
      ↔ s.data.map Char.toUpper = ['S', 'U', 'C', 'C', 'E', 'S', 'S'] := by
  unfold EqualsIgnoreCase
  rw [ToUpper_SUCCESS]
  unfold strings.ToUpper
  rw [if_pos hascii]
  constructor
  · intro h
    exact congrArg String.data h
  · intro h
    rw [h]

theorem not_equalsIgnoreCase_empty_SUCCESS (unicodeToUpper : Char → Char) :
    ¬ EqualsIgnoreCase unicodeToUpper "" "SUCCESS" := by
  unfold EqualsIgnoreCase
  rw [ToUpper_SUCCESS]
  have hempty : strings.ToUpper unicodeToUpper "" = "" := rfl
  rw [hempty]
  decide

/-! ## Fetching deals -/

theorem SwanGetOfflineDeals_calls {OfflineDeal : Type} (swanClient : SwanClient)
    (unicodeToUpper : Char → Char) (http : HttpCall → String)
    (unmarshal : String → Except String (GetOfflineDealResponse OfflineDeal))
    (minerFid status : String) (limit : List String) :
    (swanClient.SwanGetOfflineDeals unicodeToUpper http unmarshal minerFid status limit).calls =
      [⟨Transport.HttpGet,
        swanClient.ApiUrl ++ "/offline_deals/" ++ minerFid ++ "?deal_status=" ++ status
          ++ "&limit=" ++ limit.headD "50" ++ "&offset=0",
        some swanClient.Token, Body.text ""⟩] := by
  have hlimit : (if h : limit.length > 0 then limit[0] else toString GET_OFFLINEDEAL_LIMIT_DEFAULT)
      = limit.headD "50" := by
    cases limit with
    | nil => rfl
    | cons l rest => simp
  unfold SwanClient.SwanGetOfflineDeals
  simp only [hlimit]
  split
  · rfl
  · split <;> rfl

/-- C3: for every decoded task-service response, `SwanGetOfflineDeals` returns the response's
deal list when the status equals "SUCCESS" case-insensitively, and nil for any other status,
the empty string included; for a response with a non-nil deal list, the deal list is returned
if and only if the status equals "SUCCESS" case-insensitively. -/
theorem C3_fetch_deals_iff_success {OfflineDeal : Type} (swanClient : SwanClient)
    (unicodeToUpper : Char → Char) (http : HttpCall → String)
    (unmarshal : String → Except String (GetOfflineDealResponse OfflineDeal))
    (minerFid status : String) (limit : List String)
    (response : GetOfflineDealResponse OfflineDeal)
    (hresp : ∀ call ∈
        (swanClient.SwanGetOfflineDeals unicodeToUpper http unmarshal minerFid status limit).calls,
      unmarshal (http call) = Except.ok response) :
    (EqualsIgnoreCase unicodeToUpper response.Status "SUCCESS" →
      (swanClient.SwanGetOfflineDeals unicodeToUpper http unmarshal minerFid status limit).outcome
        = Outcome.returned response.Data.Deal) ∧
    (¬ EqualsIgnoreCase unicodeToUpper response.Status "SUCCESS" →
      (swanClient.SwanGetOfflineDeals unicodeToUpper http unmarshal minerFid status limit).outcome
        = Outcome.returned none) ∧
    (response.Status = "" →
      (swanClient.SwanGetOfflineDeals unicodeToUpper http unmarshal minerFid status limit).outcome
        = Outcome.returned none) ∧
    (response.Data.Deal ≠ none →
      ((swanClient.SwanGetOfflineDeals unicodeToUpper http unmarshal minerFid status limit).outcome
          = Outcome.returned response.Data.Deal
        ↔ EqualsIgnoreCase unicodeToUpper response.Status "SUCCESS")) := by
  rw [SwanGetOfflineDeals_calls] at hresp
  simp only [List.mem_singleton, forall_eq] at hresp
  have hlimit : (if h : limit.length > 0 then limit[0] else toString GET_OFFLINEDEAL_LIMIT_DEFAULT)
      = limit.headD "50" := by
    cases limit with
    | nil => rfl
    | cons l rest => simp
  have hyes : EqualsIgnoreCase unicodeToUpper response.Status "SUCCESS" →
      (swanClient.SwanGetOfflineDeals unicodeToUpper http unmarshal minerFid status limit).outcome
        = Outcome.returned response.Data.Deal := by
    intro h
    rw [equalsIgnoreCase_SUCCESS_iff] at h
    unfold SwanClient.SwanGetOfflineDeals
    simp only [hlimit, hresp, h, ne_eq, not_true_eq_false, if_false]
  have hno : ¬ EqualsIgnoreCase unicodeToUpper response.Status "SUCCESS" →
      (swanClient.SwanGetOfflineDeals unicodeToUpper http unmarshal minerFid status limit).outcome
        = Outcome.returned none := by
    intro h
    rw [equalsIgnoreCase_SUCCESS_iff] at h
    unfold SwanClient.SwanGetOfflineDeals
    simp only [hlimit, hresp, h, ne_eq, not_false_eq_true, if_true]
  refine ⟨hyes, hno, ?_, ?_⟩
  · intro hempty
    apply hno
    rw [hempty]
    exact not_equalsIgnoreCase_empty_SUCCESS unicodeToUpper
  · intro hdeal
    constructor
    · intro hout
      by_contra hne
      rw [hno hne] at hout
      injection hout with hnone
      exact hdeal hnone.symm
    · exact hyes

theorem C3_fetch_deals_iff_success_witness :
    ((⟨"http://swan", "key", "jwt"⟩ : SwanClient).SwanGetOfflineDeals Char.toUpper
        (fun _ => "response")
        (fun _ => Except.ok (⟨⟨some ["deal-1", "deal-2"]⟩, "Success"⟩ : GetOfflineDealResponse String))
        "f01000" "ReadyForImport" []).outcome
      = Outcome.returned (some ["deal-1", "deal-2"]) :=
  (C3_fetch_deals_iff_success ⟨"http://swan", "key", "jwt"⟩ Char.toUpper (fun _ => "response")
    (fun _ => Except.ok (⟨⟨some ["deal-1", "deal-2"]⟩, "Success"⟩ : GetOfflineDealResponse String))
    "f01000" "ReadyForImport" [] ⟨⟨some ["deal-1", "deal-2"]⟩, "Success"⟩
    (fun _ _ => rfl)).1 (by unfold EqualsIgnoreCase; decide)

/-! ## Updating a deal's status -/

theorem update_form_eq (status : String) (statusInfo : List String) :
      (if h : statusInfo.length > 2 then
        (if h : statusInfo.length > 1 then
          (if h : statusInfo.length > 0 then
            (Values.empty.Add "status" status).Add "note" statusInfo[0]
          else Values.empty.Add "status" status).Add "file_path" statusInfo[1]
        else
          (if h : statusInfo.length > 0 then
            (Values.empty.Add "status" status).Add "note" statusInfo[0]
          else Values.empty.Add "status" status)).Add "file_size" statusInfo[2]
      else
        (if h : statusInfo.length > 1 then
          (if h : statusInfo.length > 0 then
            (Values.empty.Add "status" status).Add "note" statusInfo[0]
          else Values.empty.Add "status" status).Add "file_path" statusInfo[1]
        else
          (if h : statusInfo.length > 0 then
            (Values.empty.Add "status" status).Add "note" statusInfo[0]
          else Values.empty.Add "status" status)))
      = statusForm status statusInfo := by
  match statusInfo with
  | [] => simp [statusForm, Values.Add, Values.empty, addEntry]
  | [a] => simp [statusForm, Values.Add, Values.empty, addEntry]
  | [a, b] => simp [statusForm, Values.Add, Values.empty, addEntry]
  | a :: b :: c :: rest => simp [statusForm, Values.Add, Values.empty, addEntry]

theorem SwanUpdateOfflineDealStatus_calls {OfflineDeal : Type} (swanClient : SwanClient)
    (unicodeToUpper : Char → Char) (http : HttpCall → String)
    (unmarshal : String → Except String (UpdateOfflineDealResponse OfflineDeal))
    (dealId : Int) (status : String) (statusInfo : List String) (hstatus : status ≠ "") :
    (swanClient.SwanUpdateOfflineDealStatus unicodeToUpper http unmarshal dealId status
        statusInfo).calls =
      [⟨Transport.HttpPut, swanClient.ApiUrl ++ "/my_miner/deals/" ++ toString dealId,
        some swanClient.Token, Body.formReader (statusForm status statusInfo)⟩] := by
  have hlen : ¬ len status = 0 := fun h => hstatus ((len_eq_zero_iff status).1 h)
  unfold SwanClient.SwanUpdateOfflineDealStatus
  rw [if_neg hlen]
  simp only [update_form_eq]
  split
  · rfl
  · split <;> rfl

theorem statusForm_lookup (status : String) (statusInfo : List String) :
    (statusForm status statusInfo).lookup "status" = some [status] ∧
    (statusForm status statusInfo).lookup "note"
      = (if h : 0 < statusInfo.length then some [statusInfo[0]] else none) ∧
    (statusForm status statusInfo).lookup "file_path"
      = (if h : 1 < statusInfo.length then some [statusInfo[1]] else none) ∧
    (statusForm status statusInfo).lookup "file_size"
      = (if h : 2 < statusInfo.length then some [statusInfo[2]] else none) ∧
    (∀ key, key ∉ ["status", "note", "file_path", "file_size"] →
      (statusForm status statusInfo).lookup key = none) := by
  have hkey : ∀ (key other : String), key ≠ other → (other == key) = false := by
    intro key other h
    simp only [beq_eq_false_iff_ne, ne_eq]
    exact fun h2 => h h2.symm
  refine ⟨?_, ?_, ?_, ?_, ?_⟩
  · simp [statusForm, Values.lookup]
  · match statusInfo with
    | [] => simp [statusForm, Values.lookup]
    | a :: rest => simp [statusForm, Values.lookup, List.find?]
  · match statusInfo with
    | [] => simp [statusForm, Values.lookup]
    | [a] => simp [statusForm, Values.lookup, List.find?]
    | a :: b :: rest => simp [statusForm, Values.lookup, List.find?]
  · match statusInfo with
    | [] => simp [statusForm, Values.lookup]
    | [a] => simp [statusForm, Values.lookup, List.find?]
    | [a, b] => simp [statusForm, Values.lookup, List.find?]
    | a :: b :: c :: rest => simp [statusForm, Values.lookup, List.find?]
  · intro key hnot
    simp only [List.mem_cons, List.mem_singleton, List.not_mem_nil, or_false, not_or] at hnot
    obtain ⟨h1, h2, h3, h4⟩ := hnot
    match statusInfo with
    | [] => simp [statusForm, Values.lookup, List.find?, hkey _ _ h1]
    | [a] => simp [statusForm, Values.lookup, List.find?, hkey _ _ h1, hkey _ _ h2]
    | [a, b] =>
      simp [statusForm, Values.lookup, List.find?, hkey _ _ h1, hkey _ _ h2, hkey _ _ h3]
    | a :: b :: c :: rest =>
      simp [statusForm, Values.lookup, List.find?, hkey _ _ h1, hkey _ _ h2, hkey _ _ h3,
        hkey _ _ h4]

/-- C4: for every non-empty status and every `statusInfo`, the form that
`SwanUpdateOfflineDealStatus` puts in the body of its PUT holds `status` always,
`note = statusInfo[0]` exactly when `statusInfo` has at least one element,
`file_path = statusInfo[1]` exactly when it has at least two, `file_size = statusInfo[2]`
exactly when it has at least three, and no other key. -/
theorem C4_status_update_form {OfflineDeal : Type} (swanClient : SwanClient)
    (unicodeToUpper : Char → Char) (http : HttpCall → String)
    (unmarshal : String → Except String (UpdateOfflineDealResponse OfflineDeal))
    (dealId : Int) (status : String) (statusInfo : List String) (hstatus : status ≠ "") :
    ∃ form,
      (swanClient.SwanUpdateOfflineDealStatus unicodeToUpper http unmarshal dealId status
          statusInfo).calls =
        [⟨Transport.HttpPut, swanClient.ApiUrl ++ "/my_miner/deals/" ++ toString dealId,
          some swanClient.Token, Body.formReader form⟩] ∧
      form.lookup "status" = some [status] ∧
      form.lookup "note" = (if h : 0 < statusInfo.length then some [statusInfo[0]] else none) ∧
      form.lookup "file_path"
        = (if h : 1 < statusInfo.length then some [statusInfo[1]] else none) ∧
      form.lookup "file_size"
        = (if h : 2 < statusInfo.length then some [statusInfo[2]] else none) ∧
      (∀ key, key ∉ ["status", "note", "file_path", "file_size"] → form.lookup key = none) :=
  ⟨statusForm status statusInfo,
    SwanUpdateOfflineDealStatus_calls swanClient unicodeToUpper http unmarshal dealId status
      statusInfo hstatus,
    statusForm_lookup status statusInfo⟩

theorem C4_status_update_form_witness :
    ∃ form,
      ((⟨"http://swan", "key", "jwt"⟩ : SwanClient).SwanUpdateOfflineDealStatus Char.toUpper
          (fun _ => "")
          (fun _ => (Except.error "unexpected end of JSON input" :
            Except String (UpdateOfflineDealResponse String)))
          7 "Downloaded" ["ok"]).calls =
        [⟨Transport.HttpPut, "http://swan/my_miner/deals/7", some "jwt", Body.formReader form⟩] ∧
      form.lookup "status" = some ["Downloaded"] ∧
      form.lookup "note" = some ["ok"] ∧
      form.lookup "file_path" = none ∧
      form.lookup "file_size" = none ∧
      (∀ key, key ∉ ["status", "note", "file_path", "file_size"] → form.lookup key = none) :=
  C4_status_update_form ⟨"http://swan", "key", "jwt"⟩ Char.toUpper (fun _ => "")
    (fun _ => Except.error "unexpected end of JSON input") 7 "Downloaded" ["ok"] (by decide)

/-- C10: with a non-empty status argument `SwanUpdateOfflineDealStatus` issues exactly one
PUT, to `/my_miner/deals/<dealId>` with the status form, and it returns true if and only if
the status argument is non-empty, the response to that PUT decodes as the update envelope,
and the decoded status equals "SUCCESS" case-insensitively; it always returns; with an empty
status argument it returns false and issues no request. -/
theorem C10_update_status_result {OfflineDeal : Type} (swanClient : SwanClient)
    (unicodeToUpper : Char → Char) (http : HttpCall → String)
    (unmarshal : String → Except String (UpdateOfflineDealResponse OfflineDeal))
    (dealId : Int) (status : String) (statusInfo : List String) :
    (status ≠ "" →
      (swanClient.SwanUpdateOfflineDealStatus unicodeToUpper http unmarshal dealId status
          statusInfo).calls =
        [⟨Transport.HttpPut, swanClient.ApiUrl ++ "/my_miner/deals/" ++ toString dealId,
          some swanClient.Token, Body.formReader (statusForm status statusInfo)⟩]) ∧
    ((swanClient.SwanUpdateOfflineDealStatus unicodeToUpper http unmarshal dealId status
          statusInfo).outcome = Outcome.returned true
      ↔ status ≠ "" ∧ ∃ response,
          unmarshal (http ⟨Transport.HttpPut,
            swanClient.ApiUrl ++ "/my_miner/deals/" ++ toString dealId,
            some swanClient.Token, Body.formReader (statusForm status statusInfo)⟩)
            = Except.ok response ∧
          EqualsIgnoreCase unicodeToUpper response.Status "SUCCESS") ∧
    ((swanClient.SwanUpdateOfflineDealStatus unicodeToUpper http unmarshal dealId status
          statusInfo).outcome = Outcome.returned true
      ↔ status ≠ "" ∧ ∃ call response,
          (swanClient.SwanUpdateOfflineDealStatus unicodeToUpper http unmarshal dealId status
            statusInfo).calls = [call] ∧
          unmarshal (http call) = Except.ok response ∧
          EqualsIgnoreCase unicodeToUpper response.Status "SUCCESS") ∧
    (∃ result, (swanClient.SwanUpdateOfflineDealStatus unicodeToUpper http unmarshal dealId
        status statusInfo).outcome = Outcome.returned result) ∧
    (status = "" →
      (swanClient.SwanUpdateOfflineDealStatus unicodeToUpper http unmarshal dealId status
          statusInfo).outcome = Outcome.returned false ∧
      (swanClient.SwanUpdateOfflineDealStatus unicodeToUpper http unmarshal dealId status
          statusInfo).calls = []) := by
  by_cases hstatus : status = ""
  · subst hstatus
    have hrun : swanClient.SwanUpdateOfflineDealStatus unicodeToUpper http unmarshal dealId ""
        statusInfo = ⟨[], [⟨Level.Error, ["Please provide status"]⟩], Outcome.returned false⟩ := by
      unfold SwanClient.SwanUpdateOfflineDealStatus
      rw [if_pos ((len_eq_zero_iff "").2 rfl)]
    rw [hrun]
    refine ⟨fun h => absurd rfl h, ⟨fun h => ?_, fun h => absurd rfl h.1⟩,
      ⟨fun h => ?_, fun h => absurd rfl h.1⟩, ⟨false, rfl⟩, fun _ => ⟨rfl, rfl⟩⟩
    · injection h with h
      exact Bool.noConfusion h
    · injection h with h
      exact Bool.noConfusion h
  · have hcalls := SwanUpdateOfflineDealStatus_calls swanClient unicodeToUpper http unmarshal
      dealId status statusInfo hstatus
    have hlen : ¬ len status = 0 := fun h => hstatus ((len_eq_zero_iff status).1 h)
    rw [hcalls]
    have hout : (swanClient.SwanUpdateOfflineDealStatus unicodeToUpper http unmarshal dealId
        status statusInfo).outcome =
        (match unmarshal (http ⟨Transport.HttpPut,
            swanClient.ApiUrl ++ "/my_miner/deals/" ++ toString dealId,
            some swanClient.Token, Body.formReader (statusForm status statusInfo)⟩) with
        | Except.error _ => Outcome.returned false
        | Except.ok response =>
          if strings.ToUpper unicodeToUpper response.Status ≠ RESPONSE_STATUS_SUCCESS then
            Outcome.returned false
          else Outcome.returned true) := by
      unfold SwanClient.SwanUpdateOfflineDealStatus
      rw [if_neg hlen]
      simp only [update_form_eq]
      generalize unmarshal (http ⟨Transport.HttpPut,
        swanClient.ApiUrl ++ "/my_miner/deals/" ++ toString dealId,
        some swanClient.Token, Body.formReader (statusForm status statusInfo)⟩) = decoded
      cases decoded with
      | error err => rfl
      | ok response =>
        simp only []
        split <;> rfl
    rw [hout]
    have hexplicit :
        (match unmarshal (http ⟨Transport.HttpPut,
            swanClient.ApiUrl ++ "/my_miner/deals/" ++ toString dealId,
            some swanClient.Token, Body.formReader (statusForm status statusInfo)⟩) with
        | Except.error _ => Outcome.returned false
        | Except.ok response =>
          if strings.ToUpper unicodeToUpper response.Status ≠ RESPONSE_STATUS_SUCCESS then
            Outcome.returned false
          else Outcome.returned true) = Outcome.returned true
        ↔ status ≠ "" ∧ ∃ response,
          unmarshal (http ⟨Transport.HttpPut,
            swanClient.ApiUrl ++ "/my_miner/deals/" ++ toString dealId,
            some swanClient.Token, Body.formReader (statusForm status statusInfo)⟩)
            = Except.ok response ∧
          EqualsIgnoreCase unicodeToUpper response.Status "SUCCESS" := by
      constructor
      · intro h
        refine ⟨hstatus, ?_⟩
        split at h
        · injection h with h
          exact Bool.noConfusion h
        · rename_i response hok
          refine ⟨response, hok, ?_⟩
          rw [equalsIgnoreCase_SUCCESS_iff]
          by_contra hne
          rw [if_pos hne] at h
          injection h with h
          exact Bool.noConfusion h
      · rintro ⟨_, response, hok, heq⟩
        rw [hok]
        rw [equalsIgnoreCase_SUCCESS_iff] at heq
        simp only [heq, ne_eq, not_true_eq_false, if_false]
    refine ⟨fun _ => rfl, hexplicit, ⟨fun h => ?_, fun h => ?_⟩, ?_, fun h => absurd h hstatus⟩
    · obtain ⟨hs, response, hok, heq⟩ := hexplicit.1 h
      exact ⟨hs, _, response, rfl, hok, heq⟩
    · obtain ⟨hs, call, response, hcall, hok, heq⟩ := h
      simp only [List.cons.injEq, and_true] at hcall
      rw [← hcall] at hok
      exact hexplicit.2 ⟨hs, response, hok, heq⟩
    · split
      · exact ⟨false, rfl⟩
      · split
        · exact ⟨false, rfl⟩
        · exact ⟨true, rfl⟩

theorem C10_update_status_result_witness :
    ((⟨"http://swan", "key", "jwt"⟩ : SwanClient).SwanUpdateOfflineDealStatus Char.toUpper
        (fun _ => "response")
        (fun _ => (Except.ok ⟨⟨"deal-7", ""⟩, "success"⟩ :
          Except String (UpdateOfflineDealResponse String)))
        7 "Downloaded" ["ok"]).outcome = Outcome.returned true ∧
    ((⟨"http://swan", "key", "jwt"⟩ : SwanClient).SwanUpdateOfflineDealStatus Char.toUpper
        (fun _ => "response")
        (fun _ => (Except.ok ⟨⟨"deal-7", ""⟩, "success"⟩ :
          Except String (UpdateOfflineDealResponse String)))
        7 "Downloaded" ["ok"]).calls =
      [⟨Transport.HttpPut, "http://swan/my_miner/deals/7", some "jwt",
        Body.formReader ⟨[("status", ["Downloaded"]), ("note", ["ok"])]⟩⟩] ∧
    ((⟨"http://swan", "key", "jwt"⟩ : SwanClient).SwanUpdateOfflineDealStatus Char.toUpper
        (fun _ => "response")
        (fun _ => (Except.ok ⟨⟨"deal-7", ""⟩, "fail"⟩ :
          Except String (UpdateOfflineDealResponse String)))
        7 "Downloaded" ["ok"]).outcome ≠ Outcome.returned true ∧
    ((⟨"http://swan", "key", "jwt"⟩ : SwanClient).SwanUpdateOfflineDealStatus Char.toUpper
        (fun _ => "response")
        (fun _ => (Except.ok ⟨⟨"deal-7", ""⟩, "success"⟩ :
          Except String (UpdateOfflineDealResponse String)))
        7 "" ["ok"]).outcome = Outcome.returned false ∧
    ((⟨"http://swan", "key", "jwt"⟩ : SwanClient).SwanUpdateOfflineDealStatus Char.toUpper
        (fun _ => "response")
        (fun _ => (Except.ok ⟨⟨"deal-7", ""⟩, "success"⟩ :
          Except String (UpdateOfflineDealResponse String)))
        7 "" ["ok"]).calls = [] :=
  ⟨(C10_update_status_result ⟨"http://swan", "key", "jwt"⟩ Char.toUpper (fun _ => "response")
      (fun _ => Except.ok ⟨⟨"deal-7", ""⟩, "success"⟩) 7 "Downloaded" ["ok"]).2.1.2
      ⟨by decide, ⟨⟨"deal-7", ""⟩, "success"⟩, rfl, by unfold EqualsIgnoreCase; decide⟩,
    (C10_update_status_result ⟨"http://swan", "key", "jwt"⟩ Char.toUpper (fun _ => "response")
      (fun _ => Except.ok ⟨⟨"deal-7", ""⟩, "success"⟩) 7 "Downloaded" ["ok"]).1 (by decide),
    fun h => by
      obtain ⟨_, response, hok, heq⟩ :=
        (C10_update_status_result ⟨"http://swan", "key", "jwt"⟩ Char.toUpper
          (fun _ => "response")
          (fun _ => (Except.ok ⟨⟨"deal-7", ""⟩, "fail"⟩ :
            Except String (UpdateOfflineDealResponse String)))
          7 "Downloaded" ["ok"]).2.1.1 h
      injection hok with hresp
      subst hresp
      revert heq
      unfold EqualsIgnoreCase
      decide,
    (C10_update_status_result ⟨"http://swan", "key", "jwt"⟩ Char.toUpper (fun _ => "response")
      (fun _ => Except.ok ⟨⟨"deal-7", ""⟩, "success"⟩) 7 "" ["ok"]).2.2.2.2 rfl⟩

/-! ## The session handshake -/

theorem SwanGetClient_calls (mainConf : MainConfig) (http : HttpCall → String)
    (GetFieldStrFromJson : String → String → String)
    (GetFieldMapFromJson : String → String → Option (List (String × Dyn))) :
    (SwanGetClient mainConf http GetFieldStrFromJson GetFieldMapFromJson).calls =
      [⟨Transport.HttpPostNoToken, mainConf.SwanApiUrl ++ "/user/api_keys/jwt", none,
        Body.credentials ⟨mainConf.SwanApiKey, mainConf.SwanAccessToken⟩⟩] := by
  unfold SwanGetClient
  simp only []
  split
  · rfl
  · split
    · rfl
    · split <;> rfl

/-- C8: when the body of the handshake response carries the failure marker, `SwanGetClient`
terminates the process after logging the response's status and message at level fatal; it
has issued the handshake call only and returns no `SwanClient`. A `SwanClient` is returned only
when the body has no failure marker and its `data` object holds the jwt as a string, which
becomes the client's token. -/
theorem C8_handshake_failure_is_fatal (mainConf : MainConfig) (http : HttpCall → String)
    (GetFieldStrFromJson : String → String → String)
    (GetFieldMapFromJson : String → String → Option (List (String × Dyn))) :
    (∀ response,
      (∀ call ∈ (SwanGetClient mainConf http GetFieldStrFromJson GetFieldMapFromJson).calls,
        http call = response) →
      strings.Contains response "fail" = true →
      SwanGetClient mainConf http GetFieldStrFromJson GetFieldMapFromJson =
        ⟨[⟨Transport.HttpPostNoToken, mainConf.SwanApiUrl ++ "/user/api_keys/jwt", none,
            Body.credentials ⟨mainConf.SwanApiKey, mainConf.SwanAccessToken⟩⟩],
          [⟨Level.Fatal, [GetFieldStrFromJson response "status", ": ",
            GetFieldStrFromJson response "message"]⟩],
          Outcome.exited⟩) ∧
    (∀ swanClient,
      (SwanGetClient mainConf http GetFieldStrFromJson GetFieldMapFromJson).outcome
        = Outcome.returned swanClient →
      ∃ call jwtToken,
        (SwanGetClient mainConf http GetFieldStrFromJson GetFieldMapFromJson).calls = [call] ∧
        strings.Contains (http call) "fail" = false ∧
        GetFieldMapFromJson (http call) "data" = some jwtToken ∧
        jwtToken.lookup "jwt" = some (Dyn.string swanClient.Token)) := by
  constructor
  · intro response hresp hfail
    rw [SwanGetClient_calls] at hresp
    simp only [List.mem_singleton, forall_eq] at hresp
    unfold SwanGetClient
    simp only [hresp, hfail, if_true, Fatal]
  · intro swanClient hout
    rw [SwanGetClient_calls]
    refine ⟨⟨Transport.HttpPostNoToken, mainConf.SwanApiUrl ++ "/user/api_keys/jwt", none,
      Body.credentials ⟨mainConf.SwanApiKey, mainConf.SwanAccessToken⟩⟩, ?_⟩
    unfold SwanGetClient at hout
    simp only [] at hout
    split at hout
    · simp only [Fatal] at hout
      exact Outcome.noConfusion hout
    · rename_i hfail
      split at hout
      · simp only [Fatal] at hout
        exact Outcome.noConfusion hout
      · rename_i jwtToken hmap
        split at hout
        · rename_i jwt hjwt
          simp only [Outcome.returned.injEq] at hout
          refine ⟨jwtToken, rfl, ?_, hmap, ?_⟩
          · simpa using hfail
          · rw [← hout]
            exact hjwt
        · exact Outcome.noConfusion hout

theorem C8_handshake_failure_is_fatal_witness :
    SwanGetClient ⟨"http://swan", "key", "secret"⟩
        (fun _ => "\x7b\"status\":\"fail\",\"message\":\"bad key\"\x7d")
        sampleGetFieldStr (fun _ _ => none) =
      ⟨[⟨Transport.HttpPostNoToken, "http://swan/user/api_keys/jwt", none,
          Body.credentials ⟨"key", "secret"⟩⟩],
        [⟨Level.Fatal, ["fail", ": ", "bad key"]⟩],
        Outcome.exited⟩ :=
  (C8_handshake_failure_is_fatal ⟨"http://swan", "key", "secret"⟩
    (fun _ => "\x7b\"status\":\"fail\",\"message\":\"bad key\"\x7d")
    sampleGetFieldStr (fun _ _ => none)).1
    "\x7b\"status\":\"fail\",\"message\":\"bad key\"\x7d" (fun _ _ => rfl) (by decide)

end client
